import Mathlib

/-!
Verification of the fb-rpc core (src/src/index.ts).

The library's buffers are JavaScript `Uint8Array`s; we model a buffer as a
`List (Fin 256)` — every entry of a `Uint8Array` is an integer in `[0, 256)`.
Strings (error messages, teardown reasons) are represented by their UTF-8
byte sequences, since the source passes them through `TextEncoder` /
`TextDecoder` at the wire boundary.

Number semantics: JavaScript stores into a `Uint8Array` via ToUint8 (value
mod 256 after truncation), and `x >> k` first truncates `x` to a signed
32-bit integer.  For `write32(buf, off, val)` the four stored bytes are
therefore exactly the little-endian bytes of `val mod 2^32`; we model values
that may be negative (error codes, the `-1` sentinel id) as `Int` and take
the nonnegative remainder `% 2^32`.
-/

set_option linter.unusedVariables false

abbrev Byte := Fin 256

abbrev Bytes := List Byte

/-- ToUint8: a JavaScript number stored into a `Uint8Array` entry. -/
def byte (n : Nat) : Byte := ⟨n % 256, by omega⟩

/-- UTF-8 bytes of a string.  All string constants in the source are ASCII,
where `TextEncoder` emits exactly the code points as single bytes. -/
def strBytes (s : String) : Bytes := s.toList.map (fun c => byte c.toNat)

/-- Source: `const HEADER_SIZE = 12` — `[1B type][1B reserved][2B method][4B id][4B body_len]`. -/
def HEADER_SIZE : Nat := 12

/-- Source `write16(buf, offset, val)`: `buf[offset] = val; buf[offset+1] = val >> 8`.
`>>` truncates to int32 first, so the bytes are those of `val mod 2^32`. -/
def write16 (val : Nat) : Bytes :=
  [byte (val % 2 ^ 32), byte (val % 2 ^ 32 / 2 ^ 8)]

/-- Source `write32(buf, offset, val)`: little-endian bytes of `val mod 2^32`
(`val` may be negative: the `-1` id and signed error codes). -/
def write32 (val : Int) : Bytes :=
  [byte (val % 2 ^ 32).toNat,
   byte ((val % 2 ^ 32).toNat / 2 ^ 8),
   byte ((val % 2 ^ 32).toNat / 2 ^ 16),
   byte ((val % 2 ^ 32).toNat / 2 ^ 24)]

/-- Source `encodeMessage(type, id, method, body)`: allocates
`HEADER_SIZE + body.length` zeroed bytes, writes `msg[0] = type`
(byte 1 stays reserved = 0), method at 2, id at 4, `body.length` at 8,
and copies the body at offset 12. -/
def encodeMessage (type : Nat) (id : Int) (method : Nat) (body : Bytes) : Bytes :=
  byte type :: byte 0 :: (write16 method ++ write32 id ++ write32 (body.length : Int) ++ body)

/-- Source `encodeVoidResponse(id, method)`: a 12-byte Response header with
`body_len = 0`; byte-for-byte this is `encodeMessage(Response, id, method, empty)`. -/
def encodeVoidResponse (id : Int) (method : Nat) : Bytes :=
  encodeMessage 2 id method []

/-- Source `encodeErrorResponse(id, code, message)`: body = 4-byte signed code
followed by the UTF-8 message bytes, wrapped in an ErrorResponse envelope with
method = 0. `message` is represented by its UTF-8 bytes. -/
def encodeErrorResponse (id : Int) (code : Int) (message : Bytes) : Bytes :=
  encodeMessage 3 id 0 (write32 code ++ message)

/-- Source `read16(buf, offset)`: `buf[offset] | (buf[offset+1] << 8)`.
On bytes `< 256` the disjoint bitwise-or is addition. Out-of-range
`Uint8Array` reads give `undefined`, which the bitwise operators coerce
to 0 — hence the `getD _ 0` default. -/
def read16 (data : Bytes) (offset : Nat) : Nat :=
  (data.getD offset 0).val + 2 ^ 8 * (data.getD (offset + 1) 0).val

/-- Source `read32(buf, offset)`: four-byte little-endian read followed by
`>>> 0`, producing the unsigned 32-bit value. -/
def read32 (data : Bytes) (offset : Nat) : Nat :=
  (data.getD offset 0).val + 2 ^ 8 * (data.getD (offset + 1) 0).val +
    2 ^ 16 * (data.getD (offset + 2) 0).val + 2 ^ 24 * (data.getD (offset + 3) 0).val

/-- Source `readI32(buf, offset)`: same bits as `read32` but without `>>> 0`,
i.e. interpreted as a signed 32-bit integer. -/
def readI32 (data : Bytes) (offset : Nat) : Int :=
  if read32 data offset < 2 ^ 31 then (read32 data offset : Int)
  else (read32 data offset : Int) - 2 ^ 32

/-- Source `class FbRpcError extends Error { code; message; id; errorMessage }`.
The `message` and `errorMessage` strings are represented by their bytes. -/
structure FbRpcError where
  code : Int
  message : Bytes
  id : Int
  errorMessage : Bytes
deriving DecidableEq, Repr

/-- Source `FB_RPC_ERRORS` entry: `{ code, message }`. -/
structure RpcErrorDef where
  code : Int
  message : Bytes
deriving DecidableEq, Repr

def FB_RPC_ERRORS.PARSE_ERROR : RpcErrorDef := ⟨1000, strBytes "Failed to parse message"⟩

def FB_RPC_ERRORS.INVALID_REQUEST : RpcErrorDef := ⟨1001, strBytes "Invalid request"⟩

def FB_RPC_ERRORS.METHOD_NOT_FOUND : RpcErrorDef := ⟨1002, strBytes "Method not found"⟩

def FB_RPC_ERRORS.INTERNAL_ERROR : RpcErrorDef := ⟨1004, strBytes "Internal error"⟩

def FB_RPC_ERRORS.REQUEST_TIMEOUT : RpcErrorDef := ⟨1005, strBytes "Request has timed-out"⟩

def FB_RPC_ERRORS.GUARD_ERROR : RpcErrorDef := ⟨1006, strBytes "Guard error"⟩

def FB_RPC_ERRORS.APPLICATION_ERROR : RpcErrorDef := ⟨1007, strBytes "Application error"⟩

/-- Source `interface DecodedMessage { type; id; method; body }`. -/
structure DecodedMessage where
  type : Nat
  id : Nat
  method : Nat
  body : Bytes
deriving DecidableEq, Repr

/-- Source `decodeMessage(data)`: length check, little-endian field reads
(`type = data[0]`, `method = read16(data, 2)`, `id = read32(data, 4)`,
`bodyLen = read32(data, 8)`), body-length check, and a view of
`data[12 .. 12+bodyLen]`. Throws are modelled as `Except.error`. -/
def decodeMessage (data : Bytes) : Except FbRpcError DecodedMessage :=
  if data.length < HEADER_SIZE then
    .error ⟨FB_RPC_ERRORS.PARSE_ERROR.code, FB_RPC_ERRORS.PARSE_ERROR.message, -1,
            strBytes "Message too short"⟩
  else if data.length < HEADER_SIZE + read32 data 8 then
    .error ⟨FB_RPC_ERRORS.PARSE_ERROR.code, FB_RPC_ERRORS.PARSE_ERROR.message, -1,
            strBytes "Incomplete message"⟩
  else
    .ok ⟨(data.getD 0 0).val, read32 data 4, read16 data 2,
         (data.drop HEADER_SIZE).take (read32 data 8)⟩

/-- Source `decodeErrorResponse(body)`: signed 32-bit code at offset 0,
UTF-8 message from offset 4 on. -/
def decodeErrorResponse (body : Bytes) : Int × Bytes :=
  (readI32 body 0, body.drop 4)

/-!
## The peer state machine

The `FbRpc` class holds mutable state (`dispatcher`, `pendingRequests`,
`toTransport`, `timeoutCheckInterval`) and reacts to public operations and
to ticks of the timeout checker.  We model JavaScript `Map`s as
insertion-ordered association lists (`Map.get` finds the entry, `Map.set`
updates in place or appends, `Map.delete` removes the entry — all matching
the iteration-order guarantees of the ECMAScript `Map`).

Observable effects — frames handed to the transport sink, and
resolution/rejection of caller promises — are returned as an event list.
A waiter's promise is identified by its correlation id.  FlatBuffers
values are opaque to the envelope layer: a packable request/response value
is represented by its serialized bytes (`packFB` is then the identity), and
the schema's reader constructors (`unpackFB` with `Req`/`Res`) are abstract
fallible decoders `Bytes → Except e α` whose error carries the thrown
message (as bytes).
-/

/-- JavaScript `Map.prototype.get` on an insertion-ordered association list. -/
def mapGet {α : Type} (k : Nat) : List (Nat × α) → Option α
  | [] => none
  | p :: ps => if p.1 = k then some p.2 else mapGet k ps

/-- JavaScript `Map.prototype.set`: replaces in place if the key is present
(keeping its insertion position), otherwise appends. -/
def mapSet {α : Type} (k : Nat) (v : α) : List (Nat × α) → List (Nat × α)
  | [] => [(k, v)]
  | p :: ps => if p.1 = k then (k, v) :: ps else p :: mapSet k v ps

/-- JavaScript `Map.prototype.delete`: removes the entry with the key. -/
def mapDelete {α : Type} (k : Nat) : List (Nat × α) → List (Nat × α)
  | [] => []
  | p :: ps => if p.1 = k then ps else p :: mapDelete k ps

/-- Source `type Guard = { type: GuardType.Guard | RequestGuard | AppDataGuard; fn }`.
A guard callable either returns or throws; the thrown value, rendered as a
string (`err.toString()` at the emission site), is carried as bytes. -/
inductive Guard (ReqVal AppData : Type) where
  | guard (fn : ReqVal → AppData → Except Bytes Unit)
  | requestGuard (fn : ReqVal → Except Bytes Unit)
  | appDataGuard (fn : AppData → Except Bytes Unit)

/-- Outcome of the handler callable `handler.fn(req, appData)`: a synchronous
value or `undefined`, a synchronous throw, or a promise that resolves
(possibly with `undefined`) or rejects.  The value is a packable, i.e. its
serialized bytes. -/
inductive HandlerResult where
  | value (v : Bytes)
  | voidValue
  | thrown (e : Bytes)
  | promiseOk (v : Option Bytes)
  | promiseErr (e : Bytes)

/-- Source `packFBWithBuilder`: clears the shared builder, packs the object
and returns its bytes.  With packables represented by their serialized
bytes this is the identity. -/
def packFB (obj : Bytes) : Bytes := obj

/-- Source `interface HandlerEntry { Req; Res?; fn; guards }`. -/
structure HandlerEntry (ReqVal ResVal AppData : Type) where
  Req : Bytes → Except Bytes ReqVal
  Res : Option (Bytes → Except Bytes ResVal)
  fn : ReqVal → AppData → HandlerResult
  guards : List (Guard ReqVal AppData)

/-- Source `interface MethodDef { Req; Res? }` (schema entry), with the
constructors fused with `unpackFB` into abstract decoders. -/
structure MethodDef (ReqVal ResVal : Type) where
  Req : Bytes → Except Bytes ReqVal
  Res : Option (Bytes → Except Bytes ResVal)

/-- Source `interface PendingRequest { id; method; resolve; reject; timestamp }`.
The completion channel is addressed through the correlation id in events;
`performance.now()` timestamps are modelled as integers on the monotonic
clock. -/
structure PendingRequest where
  id : Nat
  method : Nat
  timestamp : Int
deriving DecidableEq, Repr

/-- Observable effects of an operation: a frame handed to the transport
sink, or completion of the waiter registered under a correlation id
(`resolve` with a response value or with `undefined`, or `reject` with an
`FbRpcError`). -/
inductive RpcEvent (ResVal : Type) where
  | emit (frame : Bytes)
  | resolve (id : Nat) (v : Option ResVal)
  | reject (id : Nat) (e : FbRpcError)

/-- The mutable state of a `FbRpc<S, AppDataType>` instance.
`toTransport = true` models a registered sink, `timeoutCheckInterval = true`
a live checker interval handle. -/
structure FbRpc (ReqVal ResVal AppData : Type) where
  requestTimeout : Int
  toTransport : Bool
  dispatcher : List (Nat × HandlerEntry ReqVal ResVal AppData)
  pendingRequests : List (Nat × PendingRequest)
  schema : Nat → Option (MethodDef ReqVal ResVal)
  timeoutCheckInterval : Bool

variable {ReqVal ResVal AppData : Type}

/-- Source `callToTransport(data, appData)`: invokes the sink only when one
is registered. -/
def callToTransport (st : FbRpc ReqVal ResVal AppData) (data : Bytes) :
    List (RpcEvent ResVal) :=
  if st.toTransport then [.emit data] else []

/-- Source `startTimeoutChecker` (the interval becomes live; if it is
already live the source returns early, with the same result). -/
def startTimeoutChecker (st : FbRpc ReqVal ResVal AppData) :
    FbRpc ReqVal ResVal AppData :=
  { st with timeoutCheckInterval := true }

/-- Source `stopTimeoutChecker` (clears the interval if live). -/
def stopTimeoutChecker (st : FbRpc ReqVal ResVal AppData) :
    FbRpc ReqVal ResVal AppData :=
  { st with timeoutCheckInterval := false }

/-- The guard dispatch switch inside `handleRequest` (lines 488-498): a
`Guard` receives `(req, appData)`, a `RequestGuard` receives `(req)`, an
`AppDataGuard` receives `(appData)`. -/
def applyGuard (g : Guard ReqVal AppData) (req : ReqVal) (appData : AppData) :
    Except Bytes Unit :=
  match g with
  | .guard fn => fn req appData
  | .requestGuard fn => fn req
  | .appDataGuard fn => fn appData

/-- The guard loop inside `handleRequest` (lines 484-499): guards run in
list order; the first throw aborts the chain. -/
def executeGuards (guards : List (Guard ReqVal AppData)) (req : ReqVal)
    (appData : AppData) : Except Bytes Unit :=
  match guards with
  | [] => .ok ()
  | g :: gs =>
    match applyGuard g req appData with
    | .ok _ => executeGuards gs req appData
    | .error e => .error e

/-- Source `DispatcherHandler.addGuard`: appends a both-arguments guard. -/
def addGuard (entry : HandlerEntry ReqVal ResVal AppData)
    (fn : ReqVal → AppData → Except Bytes Unit) : HandlerEntry ReqVal ResVal AppData :=
  { entry with guards := entry.guards ++ [.guard fn] }

/-- Source `DispatcherHandler.addRequestGuard`: appends a request-only guard. -/
def addRequestGuard (entry : HandlerEntry ReqVal ResVal AppData)
    (fn : ReqVal → Except Bytes Unit) : HandlerEntry ReqVal ResVal AppData :=
  { entry with guards := entry.guards ++ [.requestGuard fn] }

/-- Source `DispatcherHandler.addAppDataGuard`: appends an app-data-only guard. -/
def addAppDataGuard (entry : HandlerEntry ReqVal ResVal AppData)
    (fn : AppData → Except Bytes Unit) : HandlerEntry ReqVal ResVal AppData :=
  { entry with guards := entry.guards ++ [.appDataGuard fn] }

/-- Source `handleRequest(msg, appData)` (lines 456-549): method lookup,
body decode, guard chain, handler invocation, and the response/error
emission policy.  Requests and Notifications share this path; a
Notification (`type = 1`) never emits.  The peer state is not modified. -/
def handleRequest (st : FbRpc ReqVal ResVal AppData) (msg : DecodedMessage)
    (appData : AppData) : List (RpcEvent ResVal) :=
  match mapGet msg.method st.dispatcher with
  | none =>
    if msg.type = 1 then []
    else callToTransport st (encodeErrorResponse (msg.id : Int)
      FB_RPC_ERRORS.METHOD_NOT_FOUND.code FB_RPC_ERRORS.METHOD_NOT_FOUND.message)
  | some handler =>
    match handler.Req msg.body with
    | .error e =>
      if msg.type = 1 then []
      else callToTransport st (encodeErrorResponse (msg.id : Int)
        FB_RPC_ERRORS.INVALID_REQUEST.code e)
    | .ok req =>
      match executeGuards handler.guards req appData with
      | .error e =>
        if msg.type = 1 then []
        else callToTransport st (encodeErrorResponse (msg.id : Int)
          FB_RPC_ERRORS.GUARD_ERROR.code e)
      | .ok _ =>
        match handler.fn req appData with
        | .thrown e =>
          if msg.type = 1 then []
          else callToTransport st (encodeErrorResponse (msg.id : Int)
            FB_RPC_ERRORS.APPLICATION_ERROR.code e)
        | .voidValue =>
          if msg.type = 1 then []
          else callToTransport st (encodeVoidResponse (msg.id : Int) msg.method)
        | .value v =>
          if msg.type = 1 then []
          else if handler.Res.isSome then
            callToTransport st (encodeMessage 2 (msg.id : Int) msg.method (packFB v))
          else callToTransport st (encodeVoidResponse (msg.id : Int) msg.method)
        | .promiseOk res =>
          if msg.type = 1 then []
          else
            match res with
            | none => callToTransport st (encodeVoidResponse (msg.id : Int) msg.method)
            | some v =>
              if handler.Res.isSome then
                callToTransport st (encodeMessage 2 (msg.id : Int) msg.method (packFB v))
              else callToTransport st (encodeVoidResponse (msg.id : Int) msg.method)
        | .promiseErr e =>
          if msg.type = 1 then []
          else callToTransport st (encodeErrorResponse (msg.id : Int)
            FB_RPC_ERRORS.APPLICATION_ERROR.code e)

/-- The runtime `TypeError` message raised by `this.schema[method].Res`
when the waiter's method is absent from the schema; it is caught by the
`try` in `handleResponse` like a reader-construction failure. -/
def undefinedSchemaEntryMessage : Bytes :=
  strBytes "Cannot read properties of undefined"

/-- The completion part of `handleResponse` (lines 558-579), after the
waiter has been removed: resolution with `undefined` (empty body or
void-declared method), with the constructed reader, or rejection with an
INVALID_REQUEST-kind error on construction failure (including the caught
`TypeError` when the waiter's method is absent from the schema). -/
def handleResponseCompletion (st : FbRpc ReqVal ResVal AppData)
    (msg : DecodedMessage) (pendingRequest : PendingRequest) :
    List (RpcEvent ResVal) :=
  if msg.body.length = 0 then [.resolve msg.id none]
  else
    match st.schema pendingRequest.method with
    | none =>
      [.reject msg.id ⟨FB_RPC_ERRORS.INVALID_REQUEST.code,
        undefinedSchemaEntryMessage, (msg.id : Int), []⟩]
    | some md =>
      match md.Res with
      | none => [.resolve msg.id none]
      | some resCtor =>
        match resCtor msg.body with
        | .ok res => [.resolve msg.id (some res)]
        | .error e =>
          [.reject msg.id ⟨FB_RPC_ERRORS.INVALID_REQUEST.code, e,
            (msg.id : Int), []⟩]

/-- Source `handleResponse(msg)` (lines 551-580): waiter lookup by
correlation id, removal, checker stop when the table empties, then the
completion of the waiter (every completion path runs after the removal). -/
def handleResponse (st : FbRpc ReqVal ResVal AppData) (msg : DecodedMessage) :
    FbRpc ReqVal ResVal AppData × List (RpcEvent ResVal) :=
  match mapGet msg.id st.pendingRequests with
  | none => (st, [])
  | some pendingRequest =>
    let pending := mapDelete msg.id st.pendingRequests
    let st1 : FbRpc ReqVal ResVal AppData := { st with pendingRequests := pending }
    let st2 := if pending.length = 0 then stopTimeoutChecker st1 else st1
    (st2, handleResponseCompletion st msg pendingRequest)

/-- Source `handleErrorResponse(msg)` (lines 582-591): waiter lookup,
removal, checker stop when the table empties, and rejection with the
decoded `(code, message)` and the correlation id. -/
def handleErrorResponse (st : FbRpc ReqVal ResVal AppData) (msg : DecodedMessage) :
    FbRpc ReqVal ResVal AppData × List (RpcEvent ResVal) :=
  match mapGet msg.id st.pendingRequests with
  | none => (st, [])
  | some _ =>
    let pending := mapDelete msg.id st.pendingRequests
    let st1 : FbRpc ReqVal ResVal AppData := { st with pendingRequests := pending }
    let st2 := if pending.length = 0 then stopTimeoutChecker st1 else st1
    (st2, [.reject msg.id ⟨(decodeErrorResponse msg.body).1,
      (decodeErrorResponse msg.body).2, (msg.id : Int), []⟩])

/-- Source `fromTransport(data, appData)` (lines 352-376): envelope decode —
on failure, a PARSE_ERROR ErrorResponse with id `-1` goes to the sink (if
any) — then the dispatch switch on the message type.  Types outside the
switch fall through with no effect. -/
def fromTransport (st : FbRpc ReqVal ResVal AppData) (data : Bytes)
    (appData : AppData) : FbRpc ReqVal ResVal AppData × List (RpcEvent ResVal) :=
  match decodeMessage data with
  | .error _ =>
    (st, callToTransport st (encodeErrorResponse (-1)
      FB_RPC_ERRORS.PARSE_ERROR.code FB_RPC_ERRORS.PARSE_ERROR.message))
  | .ok msg =>
    if msg.type = 0 ∨ msg.type = 1 then (st, handleRequest st msg appData)
    else if msg.type = 2 then handleResponse st msg
    else if msg.type = 3 then handleErrorResponse st msg
    else (st, [])

/-- Source `request(method, req, appData)` (lines 313-333): `id` is the
value produced by the global `generateRequestId`, `body` the packed request
bytes and `timestamp` the `performance.now()` reading.  The waiter is
recorded, the checker started when the table reaches size 1, and the
Request frame emitted. -/
def request (st : FbRpc ReqVal ResVal AppData) (id method : Nat) (body : Bytes)
    (timestamp : Int) : FbRpc ReqVal ResVal AppData × List (RpcEvent ResVal) :=
  let msg := encodeMessage 0 (id : Int) method body
  let pending := mapSet id ⟨id, method, timestamp⟩ st.pendingRequests
  let st1 : FbRpc ReqVal ResVal AppData := { st with pendingRequests := pending }
  let st2 := if pending.length = 1 then startTimeoutChecker st1 else st1
  (st2, callToTransport st2 msg)

/-- Source `notify(method, req, appData)` (lines 335-342): emits a
Notification frame with correlation id 0; no waiter, no completion. -/
def notify (st : FbRpc ReqVal ResVal AppData) (method : Nat) (body : Bytes) :
    FbRpc ReqVal ResVal AppData × List (RpcEvent ResVal) :=
  (st, callToTransport st (encodeMessage 1 0 method body))

/-- Source `rejectPendingRequests(error)` (lines 400-406): rejects every
waiter in table order with the given error, clears the table, stops the
checker. -/
def rejectPendingRequests (st : FbRpc ReqVal ResVal AppData) (error : FbRpcError) :
    FbRpc ReqVal ResVal AppData × List (RpcEvent ResVal) :=
  (stopTimeoutChecker { st with pendingRequests := [] },
   st.pendingRequests.map (fun p => .reject p.2.id error))

/-- Source line 410: `handler.guards.length = 0` applied to one entry. -/
def clearGuards (entry : HandlerEntry ReqVal ResVal AppData) :
    HandlerEntry ReqVal ResVal AppData :=
  { entry with guards := [] }

/-- Source `resetDispatcher` (lines 408-413): empties every registered
entry's guard list, then clears the dispatcher map. -/
def resetDispatcher (st : FbRpc ReqVal ResVal AppData) :
    FbRpc ReqVal ResVal AppData :=
  let _cleared := st.dispatcher.map (fun p => (p.1, clearGuards p.2))
  { st with dispatcher := [] }

/-- Source `clean(reason)` (lines 378-388): rejects all pending waiters
with INTERNAL_ERROR carrying `reason` as detail, resets the dispatcher,
stops the timeout checker and clears the transport sink. -/
def clean (st : FbRpc ReqVal ResVal AppData) (reason : Bytes) :
    FbRpc ReqVal ResVal AppData × List (RpcEvent ResVal) :=
  let r := rejectPendingRequests st ⟨FB_RPC_ERRORS.INTERNAL_ERROR.code,
    FB_RPC_ERRORS.INTERNAL_ERROR.message, -1, reason⟩
  let st1 := resetDispatcher r.1
  let st2 := stopTimeoutChecker st1
  ({ st2 with toTransport := false }, r.2)

/-- The id-collecting loop of the timeout sweep (lines 422-430): walk the
pending table in insertion order pushing expired ids, `break` at the first
entry younger than the timeout. -/
def collectTimedOut (now timeout : Int) : List (Nat × PendingRequest) → List Nat
  | [] => []
  | p :: ps =>
    if timeout ≤ now - p.2.timestamp then p.1 :: collectTimedOut now timeout ps
    else []

/-- The rejection loop of the timeout sweep (lines 432-441): for each
collected id, look the waiter up, delete it and reject it with
REQUEST_TIMEOUT. -/
def sweepTimedOut (err : FbRpcError) :
    List Nat → List (Nat × PendingRequest) →
    List (Nat × PendingRequest) × List (RpcEvent ResVal)
  | [], pending => (pending, [])
  | id :: ids, pending =>
    match mapGet id pending with
    | some _ =>
      let r := sweepTimedOut err ids (mapDelete id pending)
      (r.1, .reject id err :: r.2)
    | none => sweepTimedOut err ids pending

/-- One tick of the interval installed by `startTimeoutChecker`
(lines 418-446): collect the expired prefix, remove and reject it, and stop
the checker if the table emptied. -/
def timeoutCheckerTick (st : FbRpc ReqVal ResVal AppData) (now : Int) :
    FbRpc ReqVal ResVal AppData × List (RpcEvent ResVal) :=
  let timedOut := collectTimedOut now st.requestTimeout st.pendingRequests
  let r := @sweepTimedOut ResVal ⟨FB_RPC_ERRORS.REQUEST_TIMEOUT.code,
    FB_RPC_ERRORS.REQUEST_TIMEOUT.message, -1, []⟩ timedOut st.pendingRequests
  let st1 : FbRpc ReqVal ResVal AppData := { st with pendingRequests := r.1 }
  if r.1.length = 0 then (stopTimeoutChecker st1, r.2) else (st1, r.2)

/-- Source `registerToTransportCallback(cb)`: installs the sink. -/
def registerToTransportCallback (st : FbRpc ReqVal ResVal AppData) :
    FbRpc ReqVal ResVal AppData :=
  { st with toTransport := true }

/-- Source `registerHandler(method, handler)` (lines 299-311): installs a
fresh entry (schema constructors, the handler, empty guard list) under the
method id.  The schema lookup `this.schema[method]` is assumed to succeed,
which the TypeScript types enforce (`method : keyof S`). -/
def registerHandler (st : FbRpc ReqVal ResVal AppData) (method : Nat)
    (md : MethodDef ReqVal ResVal) (handler : ReqVal → AppData → HandlerResult) :
    FbRpc ReqVal ResVal AppData :=
  { st with dispatcher := mapSet method ⟨md.Req, md.Res, handler, []⟩ st.dispatcher }

/-- The operations after which claim C3 asserts the checker/pending-table
invariant: the public peer operations and the timeout-checker tick.
`opRequest`/`opNotify` carry the already-packed body. -/
inductive RpcOp (ReqVal ResVal AppData : Type) where
  | opRequest (id method : Nat) (body : Bytes) (timestamp : Int)
  | opNotify (method : Nat) (body : Bytes)
  | opFromTransport (data : Bytes) (appData : AppData)
  | opClean (reason : Bytes)
  | opTick (now : Int)
  | opRegisterTransport
  | opRegisterHandler (method : Nat) (md : MethodDef ReqVal ResVal)
      (handler : ReqVal → AppData → HandlerResult)

/-- Dispatch of an operation to its implementation. -/
def stepOp (st : FbRpc ReqVal ResVal AppData) :
    RpcOp ReqVal ResVal AppData → FbRpc ReqVal ResVal AppData × List (RpcEvent ResVal)
  | .opRequest id method body ts => request st id method body ts
  | .opNotify method body => notify st method body
  | .opFromTransport data appData => fromTransport st data appData
  | .opClean reason => clean st reason
  | .opTick now => timeoutCheckerTick st now
  | .opRegisterTransport => (registerToTransportCallback st, [])
  | .opRegisterHandler method md handler => (registerHandler st method md handler, [])

/-- Source `constructor(schema, options)` (lines 289-293): a fresh peer has
no transport sink, an empty dispatcher, an empty pending table and no
checker interval. -/
def FbRpc.make (schema : Nat → Option (MethodDef ReqVal ResVal))
    (requestTimeout : Int) : FbRpc ReqVal ResVal AppData :=
  ⟨requestTimeout, false, [], [], schema, false⟩

-- Basic computation lemmas for the codec.

theorem write16_eq (val : Nat) (h : val < 2 ^ 16) :
    write16 val = [byte val, byte (val / 2 ^ 8)] := by
  have hm : val % 2 ^ 32 = val := Nat.mod_eq_of_lt (by omega)
  simp only [write16, hm]

theorem encodeMessage_length (type : Nat) (id : Int) (method : Nat) (body : Bytes) :
    (encodeMessage type id method body).length = HEADER_SIZE + body.length := by
  simp only [encodeMessage, write16, write32, HEADER_SIZE, List.length_cons,
    List.length_append, List.length_nil]
  omega

/-- `decodeMessage` computed on a buffer that is at least 12 bytes long,
presented as twelve explicit header bytes followed by the rest. -/
theorem decodeMessage_cons (b0 b1 b2 b3 b4 b5 b6 b7 b8 b9 b10 b11 : Byte)
    (rest : Bytes) :
    decodeMessage (b0 :: b1 :: b2 :: b3 :: b4 :: b5 :: b6 :: b7 :: b8 :: b9 ::
        b10 :: b11 :: rest) =
      if rest.length < b8.val + 2 ^ 8 * b9.val + 2 ^ 16 * b10.val + 2 ^ 24 * b11.val then
        .error ⟨FB_RPC_ERRORS.PARSE_ERROR.code, FB_RPC_ERRORS.PARSE_ERROR.message, -1,
                strBytes "Incomplete message"⟩
      else
        .ok ⟨b0.val, b4.val + 2 ^ 8 * b5.val + 2 ^ 16 * b6.val + 2 ^ 24 * b7.val,
             b2.val + 2 ^ 8 * b3.val,
             rest.take (b8.val + 2 ^ 8 * b9.val + 2 ^ 16 * b10.val + 2 ^ 24 * b11.val)⟩ := by
  have hL : (b0 :: b1 :: b2 :: b3 :: b4 :: b5 :: b6 :: b7 :: b8 :: b9 :: b10 ::
      b11 :: rest).length = 12 + rest.length := by
    simp only [List.length_cons]; omega
  have h8 : read32 (b0 :: b1 :: b2 :: b3 :: b4 :: b5 :: b6 :: b7 :: b8 :: b9 ::
      b10 :: b11 :: rest) 8 =
      b8.val + 2 ^ 8 * b9.val + 2 ^ 16 * b10.val + 2 ^ 24 * b11.val := rfl
  have h4 : read32 (b0 :: b1 :: b2 :: b3 :: b4 :: b5 :: b6 :: b7 :: b8 :: b9 ::
      b10 :: b11 :: rest) 4 =
      b4.val + 2 ^ 8 * b5.val + 2 ^ 16 * b6.val + 2 ^ 24 * b7.val := rfl
  have h2 : read16 (b0 :: b1 :: b2 :: b3 :: b4 :: b5 :: b6 :: b7 :: b8 :: b9 ::
      b10 :: b11 :: rest) 2 = b2.val + 2 ^ 8 * b3.val := rfl
  have h0 : ((b0 :: b1 :: b2 :: b3 :: b4 :: b5 :: b6 :: b7 :: b8 :: b9 :: b10 ::
      b11 :: rest).getD 0 0) = b0 := rfl
  have hdrop : (b0 :: b1 :: b2 :: b3 :: b4 :: b5 :: b6 :: b7 :: b8 :: b9 :: b10 ::
      b11 :: rest).drop 12 = rest := rfl
  rw [decodeMessage.eq_def, hL, h8, h4, h2, h0]
  simp only [HEADER_SIZE]
  rw [hdrop, if_neg (by omega)]
  by_cases h : rest.length <
      b8.val + 2 ^ 8 * b9.val + 2 ^ 16 * b10.val + 2 ^ 24 * b11.val
  · rw [if_pos (by omega), if_pos h]
  · rw [if_neg (by omega), if_neg h]

/-- The explicit byte shape of `encodeMessage` when the inputs fit their
wire fields. -/
theorem encodeMessage_shape (type id method : Nat) (body : Bytes)
    (htype : type < 256) (hid : id < 2 ^ 32) (hmethod : method < 2 ^ 16)
    (hbody : body.length < 2 ^ 32) :
    encodeMessage type (id : Int) method body =
      byte type :: byte 0 :: byte method :: byte (method / 2 ^ 8) ::
      byte id :: byte (id / 2 ^ 8) :: byte (id / 2 ^ 16) :: byte (id / 2 ^ 24) ::
      byte body.length :: byte (body.length / 2 ^ 8) ::
      byte (body.length / 2 ^ 16) :: byte (body.length / 2 ^ 24) :: body := by
  have hidm : (((id : Nat) : Int) % 2 ^ 32).toNat = id := by omega
  have hlenm : (((body.length : Nat) : Int) % 2 ^ 32).toNat = body.length := by omega
  simp only [encodeMessage, write32, write16_eq method hmethod, hidm, hlenm,
    List.cons_append, List.nil_append]

/-- C1 — Envelope codec round-trip: for the four message types, any 32-bit
correlation id, any 16-bit method id and any body (a `Uint8Array`, so of
length below `2^32`), decoding the encoded frame returns exactly the four
inputs, and re-encoding the decoded fields reproduces the frame
byte-for-byte. -/
theorem encodeMessage_decodeMessage_roundtrip
    (type id method : Nat) (body : Bytes)
    (htype : type < 4) (hid : id < 2 ^ 32) (hmethod : method < 2 ^ 16)
    (hbody : body.length < 2 ^ 32) :
    decodeMessage (encodeMessage type (id : Int) method body) =
      .ok ⟨type, id, method, body⟩ ∧
    (∀ d, decodeMessage (encodeMessage type (id : Int) method body) = .ok d →
      encodeMessage d.type (d.id : Int) d.method d.body =
        encodeMessage type (id : Int) method body) := by
  have hblen : (byte body.length).val + 2 ^ 8 * (byte (body.length / 2 ^ 8)).val +
      2 ^ 16 * (byte (body.length / 2 ^ 16)).val +
      2 ^ 24 * (byte (body.length / 2 ^ 24)).val = body.length := by
    simp only [byte]; omega
  have hdec : decodeMessage (encodeMessage type (id : Int) method body) =
      .ok ⟨type, id, method, body⟩ := by
    rw [encodeMessage_shape type id method body (by omega) hid hmethod hbody,
      decodeMessage_cons, hblen, if_neg (by omega), List.take_length]
    simp only [Except.ok.injEq, DecodedMessage.mk.injEq]
    refine ⟨?_, ?_, ?_, trivial⟩
    · simp only [byte]; omega
    · simp only [byte]; omega
    · simp only [byte]; omega
  refine ⟨hdec, ?_⟩
  intro d hd
  rw [hdec] at hd
  cases hd
  rfl

/-- Witness for C1 at type 2, id 5, method 7, body [9]. -/
theorem encodeMessage_decodeMessage_roundtrip_witness :
    decodeMessage (encodeMessage 2 (5 : Int) 7 [byte 9]) =
      .ok ⟨2, 5, 7, [byte 9]⟩ := by
  exact (encodeMessage_decodeMessage_roundtrip 2 5 7 [byte 9]
    (by norm_num) (by norm_num) (by norm_num) (by norm_num)).left

/-- `readI32` recovers a signed 32-bit value written by `write32`, when the
four bytes sit at the front of the buffer. -/
theorem readI32_write32_append (code : Int) (rest : Bytes)
    (h1 : -2 ^ 31 ≤ code) (h2 : code < 2 ^ 31) :
    readI32 (write32 code ++ rest) 0 = code := by
  have hm : (0 : Int) ≤ code % 2 ^ 32 ∧ code % 2 ^ 32 < 2 ^ 32 := by
    constructor <;> omega
  have hr : read32 (write32 code ++ rest) 0 =
      (byte (code % 2 ^ 32).toNat).val +
      2 ^ 8 * (byte ((code % 2 ^ 32).toNat / 2 ^ 8)).val +
      2 ^ 16 * (byte ((code % 2 ^ 32).toNat / 2 ^ 16)).val +
      2 ^ 24 * (byte ((code % 2 ^ 32).toNat / 2 ^ 24)).val := by
    simp only [write32, List.cons_append, List.nil_append]
    rfl
  have hrecon : read32 (write32 code ++ rest) 0 = (code % 2 ^ 32).toNat := by
    rw [hr]; simp only [byte]; omega
  simp only [readI32, hrecon]
  omega

/-- C8 — Error-frame round-trip and normalization: for every signed 32-bit
code and every message (as UTF-8 bytes), `encodeErrorResponse id code message`
is an ErrorResponse envelope (type 3) with method field 0 over a body of
length `4 + message.length`, and `decodeErrorResponse` applied to that body
returns exactly `(code, message)`, the code read back as signed. -/
theorem encodeErrorResponse_decodeErrorResponse_roundtrip
    (id code : Int) (message : Bytes)
    (h1 : -2 ^ 31 ≤ code) (h2 : code < 2 ^ 31) :
    encodeErrorResponse id code message =
      encodeMessage 3 id 0 (write32 code ++ message) ∧
    (write32 code ++ message).length = 4 + message.length ∧
    decodeErrorResponse (write32 code ++ message) = (code, message) := by
  refine ⟨rfl, ?_, ?_⟩
  · simp only [write32, List.length_append, List.length_cons, List.length_nil]
  · simp only [decodeErrorResponse, readI32_write32_append code message h1 h2]
    have hdrop : (write32 code ++ message).drop 4 = message := by
      simp only [write32, List.cons_append, List.nil_append]
      rfl
    rw [hdrop]

/-- Witness for C8 at id 1, code -7, message bytes of "bad". -/
theorem encodeErrorResponse_decodeErrorResponse_roundtrip_witness :
    decodeErrorResponse (write32 (-7) ++ strBytes "bad") = (-7, strBytes "bad") := by
  exact (encodeErrorResponse_decodeErrorResponse_roundtrip 1 (-7) (strBytes "bad")
    (by norm_num) (by norm_num)).right.right

/-! ## Timeout sweep (C2) -/

/-- Sweeping exactly the collected ids over the table they were collected
from removes the expired prefix and rejects each of its entries in order:
each collected id is, at its turn, the head of the remaining table. -/
theorem sweepTimedOut_collectTimedOut (now t : Int) (err : FbRpcError)
    (l : List (Nat × PendingRequest)) :
    @sweepTimedOut ResVal err (collectTimedOut now t l) l =
      (l.dropWhile (fun p => decide (t ≤ now - p.2.timestamp)),
       (l.takeWhile (fun p => decide (t ≤ now - p.2.timestamp))).map
         (fun p => .reject p.1 err)) := by
  induction l with
  | nil => rfl
  | cons p ps ih =>
    by_cases h : t ≤ now - p.2.timestamp
    · have hdec : decide (t ≤ now - p.2.timestamp) = true := by simp [h]
      have htw : List.takeWhile (fun q => decide (t ≤ now - q.2.timestamp)) (p :: ps) =
          p :: List.takeWhile (fun q => decide (t ≤ now - q.2.timestamp)) ps := by
        simp only [List.takeWhile, hdec]
      have hdw : List.dropWhile (fun q => decide (t ≤ now - q.2.timestamp)) (p :: ps) =
          List.dropWhile (fun q => decide (t ≤ now - q.2.timestamp)) ps := by
        simp only [List.dropWhile, hdec]
      have hcol : collectTimedOut now t (p :: ps) = p.1 :: collectTimedOut now t ps := by
        simp only [collectTimedOut, if_pos h]
      have hget : mapGet p.1 (p :: ps) = some p.2 := by simp [mapGet]
      have hdel : mapDelete p.1 (p :: ps) = ps := by simp [mapDelete]
      rw [hcol, htw, hdw]
      simp only [sweepTimedOut, hget, hdel, ih, List.map_cons]
    · have hdec : decide (t ≤ now - p.2.timestamp) = false := by simp [h]
      have htw : List.takeWhile (fun q => decide (t ≤ now - q.2.timestamp)) (p :: ps) =
          [] := by
        simp only [List.takeWhile, hdec]
      have hdw : List.dropWhile (fun q => decide (t ≤ now - q.2.timestamp)) (p :: ps) =
          p :: ps := by
        simp only [List.dropWhile, hdec]
      have hcol : collectTimedOut now t (p :: ps) = [] := by
        simp only [collectTimedOut, if_neg h]
      rw [hcol, htw, hdw]
      simp only [sweepTimedOut, List.map_nil]

/-- In a table whose timestamps are nondecreasing in insertion order, every
expired entry lies in the expired prefix. -/
theorem mem_takeWhile_expired_of_mono (now t : Int)
    (l : List (Nat × PendingRequest))
    (hmono : l.Pairwise (fun a b => a.2.timestamp ≤ b.2.timestamp))
    (p : Nat × PendingRequest) (hp : p ∈ l) (hexp : t ≤ now - p.2.timestamp) :
    p ∈ l.takeWhile (fun q => decide (t ≤ now - q.2.timestamp)) := by
  induction l with
  | nil => cases hp
  | cons x ps ih =>
    rcases List.pairwise_cons.mp hmono with ⟨hx, hps⟩
    by_cases hcond : t ≤ now - x.2.timestamp
    · have hdec : decide (t ≤ now - x.2.timestamp) = true := by simp [hcond]
      have htw : List.takeWhile (fun q => decide (t ≤ now - q.2.timestamp)) (x :: ps) =
          x :: List.takeWhile (fun q => decide (t ≤ now - q.2.timestamp)) ps := by
        simp only [List.takeWhile, hdec]
      rw [htw]
      rcases List.mem_cons.mp hp with rfl | hmem
      · exact List.mem_cons_self _ _
      · exact List.mem_cons_of_mem _ (ih hps hmem)
    · rcases List.mem_cons.mp hp with rfl | hmem
      · exact absurd hexp hcond
      · have := hx p hmem
        omega

/-- C2 — Timeout sweep correctness: a tick walks the table in insertion
order marking entries with `now − timestamp ≥ requestTimeout` and stops at
the first non-expired entry (the marked entries are exactly the
`takeWhile`-prefix); exactly the marked entries are removed (the new table
is the `dropWhile`-suffix) and each marked waiter is rejected, in order,
with an `FbRpcError` of code 1005 (REQUEST_TIMEOUT); and with timestamps
nondecreasing in insertion order the marked prefix contains every expired
entry. -/
theorem timeoutCheckerTick_spec (st : FbRpc ReqVal ResVal AppData) (now : Int)
    (hmono : st.pendingRequests.Pairwise (fun a b => a.2.timestamp ≤ b.2.timestamp)) :
    (timeoutCheckerTick st now).1.pendingRequests =
      st.pendingRequests.dropWhile
        (fun p => decide (st.requestTimeout ≤ now - p.2.timestamp)) ∧
    (timeoutCheckerTick st now).2 =
      (st.pendingRequests.takeWhile
        (fun p => decide (st.requestTimeout ≤ now - p.2.timestamp))).map
        (fun p => .reject p.1 ⟨FB_RPC_ERRORS.REQUEST_TIMEOUT.code,
          FB_RPC_ERRORS.REQUEST_TIMEOUT.message, -1, []⟩) ∧
    ∀ p ∈ st.pendingRequests, st.requestTimeout ≤ now - p.2.timestamp →
      p ∈ st.pendingRequests.takeWhile
        (fun p => decide (st.requestTimeout ≤ now - p.2.timestamp)) := by
  have hsweep := @sweepTimedOut_collectTimedOut ResVal now
    st.requestTimeout ⟨FB_RPC_ERRORS.REQUEST_TIMEOUT.code,
      FB_RPC_ERRORS.REQUEST_TIMEOUT.message, -1, []⟩ st.pendingRequests
  refine ⟨?_, ?_, ?_⟩
  · simp only [timeoutCheckerTick, hsweep]
    split <;> rfl
  · simp only [timeoutCheckerTick, hsweep]
    split <;> rfl
  · intro p hp hexp
    exact mem_takeWhile_expired_of_mono now st.requestTimeout
      st.pendingRequests hmono p hp hexp

/-- Witness for C2: a two-entry table where only the first entry expired. -/
theorem timeoutCheckerTick_spec_witness :
    (timeoutCheckerTick
      (⟨100, true, [], [(1, ⟨1, 0, 0⟩), (2, ⟨2, 0, 50⟩)], fun _ => none, true⟩ :
        FbRpc Unit Unit Unit) 120).1.pendingRequests = [(2, ⟨2, 0, 50⟩)] := by
  have h := timeoutCheckerTick_spec
    (⟨100, true, [], [(1, ⟨1, 0, 0⟩), (2, ⟨2, 0, 50⟩)], fun _ => none, true⟩ :
      FbRpc Unit Unit Unit) 120 (by decide)
  rw [h.left]
  rfl

/-! ## Timeout-checker liveness invariant (C3) -/

theorem mapSet_ne_nil {α : Type} (k : Nat) (v : α) (l : List (Nat × α)) :
    mapSet k v l ≠ [] := by
  cases l with
  | nil => simp [mapSet]
  | cons p ps =>
    simp only [mapSet]
    split <;> simp

theorem mapGet_isSome_ne_nil {α : Type} (k : Nat) (v : α) (l : List (Nat × α))
    (h : mapGet k l = some v) : l ≠ [] := by
  cases l with
  | nil => simp [mapGet] at h
  | cons p ps => simp

/-- `handleResponse` preserves the checker/pending-table invariant. -/
theorem handleResponse_checkerInv (st : FbRpc ReqVal ResVal AppData)
    (msg : DecodedMessage)
    (h : st.timeoutCheckInterval = true ↔ st.pendingRequests ≠ []) :
    (handleResponse st msg).1.timeoutCheckInterval = true ↔
      (handleResponse st msg).1.pendingRequests ≠ [] := by
  cases hk : mapGet msg.id st.pendingRequests with
  | none => simpa [handleResponse, hk] using h
  | some pr =>
    have hne := mapGet_isSome_ne_nil msg.id pr st.pendingRequests hk
    by_cases hlen : (mapDelete msg.id st.pendingRequests).length = 0
    · have hnil : mapDelete msg.id st.pendingRequests = [] :=
        List.eq_nil_of_length_eq_zero hlen
      simp [handleResponse, hk, hlen, stopTimeoutChecker, hnil]
    · have hint : st.timeoutCheckInterval = true := h.mpr hne
      simp only [handleResponse, hk, if_neg hlen]
      simp_all [List.length_eq_zero]

/-- `handleErrorResponse` preserves the checker/pending-table invariant. -/
theorem handleErrorResponse_checkerInv (st : FbRpc ReqVal ResVal AppData)
    (msg : DecodedMessage)
    (h : st.timeoutCheckInterval = true ↔ st.pendingRequests ≠ []) :
    (handleErrorResponse st msg).1.timeoutCheckInterval = true ↔
      (handleErrorResponse st msg).1.pendingRequests ≠ [] := by
  cases hk : mapGet msg.id st.pendingRequests with
  | none => simpa [handleErrorResponse, hk] using h
  | some pr =>
    have hne := mapGet_isSome_ne_nil msg.id pr st.pendingRequests hk
    by_cases hlen : (mapDelete msg.id st.pendingRequests).length = 0
    · have hnil : mapDelete msg.id st.pendingRequests = [] :=
        List.eq_nil_of_length_eq_zero hlen
      simp [handleErrorResponse, hk, hlen, stopTimeoutChecker, hnil]
    · have hint : st.timeoutCheckInterval = true := h.mpr hne
      simp only [handleErrorResponse, hk, if_neg hlen]
      simp_all [List.length_eq_zero]

/-- C3 — Timeout-checker liveness invariant: a freshly constructed peer
satisfies "the checker interval handle is live iff the pending table is
non-empty", and every public operation (`request`, `notify`,
`fromTransport`, `clean`, sink/handler registration) and every
timeout-checker tick preserves it — so it holds after every operation from
construction on; in particular `request` on an empty table starts the
checker and completion of the last pending request stops it. -/
theorem stepOp_checkerInv (schema : Nat → Option (MethodDef ReqVal ResVal))
    (timeout : Int) (st : FbRpc ReqVal ResVal AppData)
    (op : RpcOp ReqVal ResVal AppData)
    (h : st.timeoutCheckInterval = true ↔ st.pendingRequests ≠ []) :
    ((@FbRpc.make ReqVal ResVal AppData schema timeout).timeoutCheckInterval = true ↔
      (@FbRpc.make ReqVal ResVal AppData schema timeout).pendingRequests ≠ []) ∧
    ((stepOp st op).1.timeoutCheckInterval = true ↔
      (stepOp st op).1.pendingRequests ≠ []) := by
  refine ⟨by simp [FbRpc.make], ?_⟩
  cases op with
  | opRequest id method body ts =>
    by_cases hlen : (mapSet id (⟨id, method, ts⟩ : PendingRequest)
        st.pendingRequests).length = 1
    · simp [stepOp, request, hlen, startTimeoutChecker,
        mapSet_ne_nil id (⟨id, method, ts⟩ : PendingRequest) st.pendingRequests]
    · have hge : st.pendingRequests ≠ [] := by
        intro hnil
        rw [hnil] at hlen
        exact hlen (by simp [mapSet])
      have hint : st.timeoutCheckInterval = true := h.mpr hge
      simp [stepOp, request, hlen, hint,
        mapSet_ne_nil id (⟨id, method, ts⟩ : PendingRequest) st.pendingRequests]
  | opNotify method body => simpa [stepOp, notify] using h
  | opFromTransport data appData =>
    cases hd : decodeMessage data with
    | error e => simpa [stepOp, fromTransport, hd] using h
    | ok msg =>
      by_cases h01 : msg.type = 0 ∨ msg.type = 1
      · simpa [stepOp, fromTransport, hd, h01] using h
      · by_cases h2 : msg.type = 2
        · simpa [stepOp, fromTransport, hd, h01, h2] using
            handleResponse_checkerInv st msg h
        · by_cases h3 : msg.type = 3
          · simpa [stepOp, fromTransport, hd, h01, h2, h3] using
              handleErrorResponse_checkerInv st msg h
          · simpa [stepOp, fromTransport, hd, h01, h2, h3] using h
  | opClean reason =>
    simp [stepOp, clean, rejectPendingRequests, resetDispatcher,
      stopTimeoutChecker]
  | opTick now =>
    have hsweep := @sweepTimedOut_collectTimedOut ResVal now
      st.requestTimeout ⟨FB_RPC_ERRORS.REQUEST_TIMEOUT.code,
        FB_RPC_ERRORS.REQUEST_TIMEOUT.message, -1, []⟩ st.pendingRequests
    by_cases hlen : (List.dropWhile
        (fun p => decide (st.requestTimeout ≤ now - p.2.timestamp))
        st.pendingRequests).length = 0
    · simp [stepOp, timeoutCheckerTick, hsweep, hlen, stopTimeoutChecker,
        List.eq_nil_of_length_eq_zero hlen]
    · have hdropne : List.dropWhile
          (fun p => decide (st.requestTimeout ≤ now - p.2.timestamp))
          st.pendingRequests ≠ [] := by
        intro hnil
        rw [hnil] at hlen
        exact hlen rfl
      have hpe : st.pendingRequests ≠ [] := by
        intro hnil
        rw [hnil] at hdropne
        exact hdropne rfl
      have hint : st.timeoutCheckInterval = true := h.mpr hpe
      simp [stepOp, timeoutCheckerTick, hsweep, hlen, hint, hdropne]
  | opRegisterTransport =>
    simpa [stepOp, registerToTransportCallback] using h
  | opRegisterHandler method md handler =>
    simpa [stepOp, registerHandler] using h

/-- Witness for C3: a `request` on an empty table starts the checker. -/
theorem stepOp_checkerInv_witness :
    ((stepOp (⟨5000, true, [], [], fun _ => none, false⟩ : FbRpc Unit Unit Unit)
      (.opRequest 1 2 [] 0)).1.timeoutCheckInterval = true ↔
    (stepOp (⟨5000, true, [], [], fun _ => none, false⟩ : FbRpc Unit Unit Unit)
      (.opRequest 1 2 [] 0)).1.pendingRequests ≠ []) := by
  exact (stepOp_checkerInv (fun _ => none) 5000
    (⟨5000, true, [], [], fun _ => none, false⟩ : FbRpc Unit Unit Unit)
    (.opRequest 1 2 [] 0) (by simp)).right

/-! ## Response completion (C4) -/

/-- C4 — Response completion: an inbound Response frame with no pending
waiter under its correlation id is dropped with no state change and no
emission; otherwise the waiter is removed from the pending table and
(a) resolved with void when the body is empty or the schema declares no
response constructor for the waiter's method, (b) resolved with the
constructed response reader otherwise, and (c) rejected with an error of
code 1001 (INVALID_REQUEST) carrying the correlation id when construction
fails.  (The waiter's method is assumed present in the schema, which the
TypeScript types enforce for every registered waiter.) -/
theorem handleResponse_spec (st : FbRpc ReqVal ResVal AppData)
    (msg : DecodedMessage) :
    (mapGet msg.id st.pendingRequests = none →
      handleResponse st msg = (st, [])) ∧
    (∀ pr md, mapGet msg.id st.pendingRequests = some pr →
      st.schema pr.method = some md →
      (handleResponse st msg).1.pendingRequests =
        mapDelete msg.id st.pendingRequests ∧
      (msg.body = [] → (handleResponse st msg).2 = [.resolve msg.id none]) ∧
      (msg.body ≠ [] → md.Res = none →
        (handleResponse st msg).2 = [.resolve msg.id none]) ∧
      (∀ resCtor res, msg.body ≠ [] → md.Res = some resCtor →
        resCtor msg.body = .ok res →
        (handleResponse st msg).2 = [.resolve msg.id (some res)]) ∧
      (∀ resCtor e, msg.body ≠ [] → md.Res = some resCtor →
        resCtor msg.body = .error e →
        (handleResponse st msg).2 = [.reject msg.id
          ⟨FB_RPC_ERRORS.INVALID_REQUEST.code, e, (msg.id : Int), []⟩])) := by
  refine ⟨?_, ?_⟩
  · intro hnone
    simp [handleResponse, hnone]
  · intro pr md hk hschema
    refine ⟨?_, ?_, ?_, ?_, ?_⟩
    · simp only [handleResponse, hk]
      split <;> rfl
    · intro hbody
      simp [handleResponse, handleResponseCompletion, hk, hbody]
    · intro hbody hres
      simp [handleResponse, handleResponseCompletion, hk, hschema, hres,
        List.length_eq_zero, hbody]
    · intro resCtor res hbody hres hctor
      simp [handleResponse, handleResponseCompletion, hk, hschema, hres, hctor,
        List.length_eq_zero, hbody]
    · intro resCtor e hbody hres hctor
      simp [handleResponse, handleResponseCompletion, hk, hschema, hres, hctor,
        List.length_eq_zero, hbody]

/-- Witness for C4: a one-waiter table, a successful reader construction. -/
theorem handleResponse_spec_witness :
    (handleResponse
      (⟨5000, true, [], [(4, ⟨4, 9, 0⟩)],
        fun m => if m = 9 then
          some ⟨fun _ => .ok (), some (fun _ => .ok 42)⟩ else none, true⟩ :
        FbRpc Unit Nat Unit)
      ⟨2, 4, 0, [byte 1]⟩).2 = [.resolve 4 (some 42)] := by
  have h := (handleResponse_spec
    (⟨5000, true, [], [(4, ⟨4, 9, 0⟩)],
      fun m => if m = 9 then
        some ⟨fun _ => .ok (), some (fun _ => .ok 42)⟩ else none, true⟩ :
      FbRpc Unit Nat Unit)
    ⟨2, 4, 0, [byte 1]⟩).right ⟨4, 9, 0⟩
    ⟨fun _ => .ok (), some (fun _ => .ok 42)⟩ (by rfl) (by rfl)
  exact h.right.right.right.left (fun _ => .ok 42) 42 (by simp) rfl rfl

/-! ## Guard chain (C5) -/

/-- Running the guard loop over a chain whose prefix succeeds and whose
next guard throws yields that guard's error, for any suffix. -/
theorem executeGuards_append_error (gs1 : List (Guard ReqVal AppData))
    (g : Guard ReqVal AppData) (gs2 : List (Guard ReqVal AppData))
    (req : ReqVal) (appData : AppData) (e : Bytes)
    (hok : ∀ g' ∈ gs1, applyGuard g' req appData = .ok ())
    (hthrow : applyGuard g req appData = .error e) :
    executeGuards (gs1 ++ g :: gs2) req appData = .error e := by
  induction gs1 with
  | nil => simp [executeGuards, hthrow]
  | cons x xs ih =>
    have hx : applyGuard x req appData = .ok () := hok x (List.mem_cons_self _ _)
    simp only [List.cons_append, executeGuards, hx]
    exact ih (fun g' hg' => hok g' (List.mem_cons_of_mem _ hg'))

/-- C5 — Guard chain semantics: for an inbound Request or Notification with
a registered handler and a successfully decoded body, if the guards before
`g` in the appended order all pass and `g` throws, then — whatever the
remaining guards and the handler are — a Request emits exactly one
ErrorResponse with the request's id and code 1006 (GUARD_ERROR), and a
Notification emits nothing. -/
theorem handleRequest_guard_chain (st : FbRpc ReqVal ResVal AppData)
    (msg : DecodedMessage) (appData : AppData)
    (handler : HandlerEntry ReqVal ResVal AppData) (req : ReqVal) (e : Bytes)
    (gs1 : List (Guard ReqVal AppData)) (g : Guard ReqVal AppData)
    (gs2 : List (Guard ReqVal AppData))
    (hdisp : mapGet msg.method st.dispatcher = some handler)
    (hguards : handler.guards = gs1 ++ g :: gs2)
    (hreq : handler.Req msg.body = .ok req)
    (hok : ∀ g' ∈ gs1, applyGuard g' req appData = .ok ())
    (hthrow : applyGuard g req appData = .error e)
    (hsink : st.toTransport = true) :
    (msg.type = 0 → handleRequest st msg appData =
      [.emit (encodeErrorResponse (msg.id : Int) FB_RPC_ERRORS.GUARD_ERROR.code e)]) ∧
    (msg.type = 1 → handleRequest st msg appData = []) := by
  have hge : executeGuards handler.guards req appData = .error e := by
    rw [hguards]
    exact executeGuards_append_error gs1 g gs2 req appData e hok hthrow
  constructor
  · intro ht
    simp [handleRequest, hdisp, hreq, hge, ht, callToTransport, hsink]
  · intro ht
    simp [handleRequest, hdisp, hreq, hge, ht]

/-- Witness for C5: a single throwing request-guard on a registered method. -/
theorem handleRequest_guard_chain_witness :
    handleRequest
      (⟨5000, true,
        [(3, ⟨fun _ => .ok (), none, fun _ _ => .voidValue,
          [.requestGuard (fun _ => .error (strBytes "denied"))]⟩)],
        [], fun _ => none, false⟩ : FbRpc Unit Unit Unit)
      ⟨0, 7, 3, []⟩ () =
      [.emit (encodeErrorResponse ((7 : Nat) : Int) FB_RPC_ERRORS.GUARD_ERROR.code
        (strBytes "denied"))] := by
  exact (handleRequest_guard_chain
    (⟨5000, true,
      [(3, ⟨fun _ => .ok (), none, fun _ _ => .voidValue,
        [.requestGuard (fun _ => .error (strBytes "denied"))]⟩)],
      [], fun _ => none, false⟩ : FbRpc Unit Unit Unit)
    ⟨0, 7, 3, []⟩ ()
    ⟨fun _ => .ok (), none, fun _ _ => .voidValue,
      [.requestGuard (fun _ => .error (strBytes "denied"))]⟩ () (strBytes "denied")
    [] (.requestGuard (fun _ => .error (strBytes "denied"))) []
    rfl rfl rfl (by intro g' hg'; cases hg') rfl rfl).left rfl

/-! ## Unknown method (C6) -/

/-- C6 — Unknown-method handling: an inbound Request whose method id has no
registered handler produces exactly one ErrorResponse with the request's
correlation id and code 1002 (METHOD_NOT_FOUND) on the transport sink, the
peer state unchanged; an inbound Notification with an unregistered method
produces no frame and leaves the peer state unchanged. -/
theorem fromTransport_unknown_method (st : FbRpc ReqVal ResVal AppData)
    (data : Bytes) (appData : AppData) (msg : DecodedMessage)
    (hdec : decodeMessage data = .ok msg)
    (hnone : mapGet msg.method st.dispatcher = none) :
    (msg.type = 0 → st.toTransport = true →
      fromTransport st data appData =
        (st, [.emit (encodeErrorResponse (msg.id : Int)
          FB_RPC_ERRORS.METHOD_NOT_FOUND.code
          FB_RPC_ERRORS.METHOD_NOT_FOUND.message)])) ∧
    (msg.type = 1 → fromTransport st data appData = (st, [])) := by
  constructor
  · intro ht hsink
    simp [fromTransport, hdec, ht, handleRequest, hnone, callToTransport, hsink]
  · intro ht
    simp [fromTransport, hdec, ht, handleRequest, hnone]

/-- Witness for C6: a Request frame for method 9 against an empty dispatcher. -/
theorem fromTransport_unknown_method_witness :
    fromTransport
      (⟨5000, true, [], [], fun _ => none, false⟩ : FbRpc Unit Unit Unit)
      (encodeMessage 0 ((4 : Nat) : Int) 9 []) () =
      ((⟨5000, true, [], [], fun _ => none, false⟩ : FbRpc Unit Unit Unit),
       [.emit (encodeErrorResponse ((4 : Nat) : Int)
         FB_RPC_ERRORS.METHOD_NOT_FOUND.code
         FB_RPC_ERRORS.METHOD_NOT_FOUND.message)]) := by
  exact (fromTransport_unknown_method
    (⟨5000, true, [], [], fun _ => none, false⟩ : FbRpc Unit Unit Unit)
    (encodeMessage 0 ((4 : Nat) : Int) 9 []) () ⟨0, 4, 9, []⟩
    (by rfl) rfl).left rfl rfl

/-! ## Parse-error path (C7) -/

/-- C7 — Parse-error path: for input shorter than 12 bytes, or whose
declared body length exceeds the bytes remaining after the header,
`fromTransport` leaves the whole peer state (pending table, dispatcher,
sink, checker) unchanged and — when a sink is set — emits exactly one
ErrorResponse frame whose correlation-id field reads back as the unsigned
all-ones `2^32 − 1` (the `-1` sentinel), whose method field is 0, whose
type byte is 3, and whose body decodes to code 1000 (PARSE_ERROR). -/
theorem fromTransport_parse_error (st : FbRpc ReqVal ResVal AppData)
    (data : Bytes) (appData : AppData)
    (hbad : data.length < 12 ∨ data.length < 12 + read32 data 8) :
    (fromTransport st data appData).1 = st ∧
    (fromTransport st data appData).2 =
      callToTransport st (encodeErrorResponse (-1) FB_RPC_ERRORS.PARSE_ERROR.code
        FB_RPC_ERRORS.PARSE_ERROR.message) ∧
    (st.toTransport = true → (fromTransport st data appData).2 =
      [.emit (encodeErrorResponse (-1) FB_RPC_ERRORS.PARSE_ERROR.code
        FB_RPC_ERRORS.PARSE_ERROR.message)]) ∧
    read32 (encodeErrorResponse (-1) FB_RPC_ERRORS.PARSE_ERROR.code
      FB_RPC_ERRORS.PARSE_ERROR.message) 4 = 2 ^ 32 - 1 ∧
    read16 (encodeErrorResponse (-1) FB_RPC_ERRORS.PARSE_ERROR.code
      FB_RPC_ERRORS.PARSE_ERROR.message) 2 = 0 ∧
    (encodeErrorResponse (-1) FB_RPC_ERRORS.PARSE_ERROR.code
      FB_RPC_ERRORS.PARSE_ERROR.message).getD 0 0 = byte 3 ∧
    decodeErrorResponse (write32 FB_RPC_ERRORS.PARSE_ERROR.code ++
      FB_RPC_ERRORS.PARSE_ERROR.message) =
      (1000, FB_RPC_ERRORS.PARSE_ERROR.message) := by
  have herr : ∃ err, decodeMessage data = .error err := by
    by_cases hlt : data.length < HEADER_SIZE
    · exact ⟨⟨FB_RPC_ERRORS.PARSE_ERROR.code, FB_RPC_ERRORS.PARSE_ERROR.message,
        -1, strBytes "Message too short"⟩, by simp only [decodeMessage, if_pos hlt]⟩
    · have hb2 : data.length < HEADER_SIZE + read32 data 8 := by
        simp only [HEADER_SIZE] at hlt ⊢
        omega
      exact ⟨⟨FB_RPC_ERRORS.PARSE_ERROR.code, FB_RPC_ERRORS.PARSE_ERROR.message,
        -1, strBytes "Incomplete message"⟩,
        by simp only [decodeMessage, if_neg hlt, if_pos hb2]⟩
  obtain ⟨err, herr⟩ := herr
  refine ⟨?_, ?_, ?_, ?_, ?_, ?_, ?_⟩
  · simp [fromTransport, herr]
  · simp [fromTransport, herr]
  · intro hsink
    simp [fromTransport, herr, callToTransport, hsink]
  · rfl
  · rfl
  · rfl
  · simp only [decodeErrorResponse, Prod.mk.injEq]
    constructor
    · exact readI32_write32_append 1000 FB_RPC_ERRORS.PARSE_ERROR.message
        (by norm_num) (by norm_num)
    · rfl

/-- Witness for C7: the empty input (shorter than the 12-byte header). -/
theorem fromTransport_parse_error_witness :
    (fromTransport (⟨5000, true, [], [], fun _ => none, false⟩ :
      FbRpc Unit Unit Unit) [] ()).2 =
      [.emit (encodeErrorResponse (-1) FB_RPC_ERRORS.PARSE_ERROR.code
        FB_RPC_ERRORS.PARSE_ERROR.message)] := by
  exact (fromTransport_parse_error (⟨5000, true, [], [], fun _ => none, false⟩ :
    FbRpc Unit Unit Unit) [] () (Or.inl (by norm_num))).right.right.left rfl

/-! ## Teardown (C9) -/

/-- C9 — Teardown postcondition: after `clean(reason)` every waiter that
was pending is rejected (in table order, exactly once each) with an
`FbRpcError` of code 1004 (INTERNAL_ERROR) carrying `reason` as its detail
message; the pending table and the dispatcher are empty, every former
handler entry has its guard list cleared, the timeout checker is stopped,
and the transport sink is cleared (so prior waiters can emit no further
frames). -/
theorem clean_spec (st : FbRpc ReqVal ResVal AppData) (reason : Bytes) :
    (clean st reason).2 = st.pendingRequests.map
      (fun p => .reject p.2.id ⟨FB_RPC_ERRORS.INTERNAL_ERROR.code,
        FB_RPC_ERRORS.INTERNAL_ERROR.message, -1, reason⟩) ∧
    (clean st reason).1.pendingRequests = [] ∧
    (clean st reason).1.dispatcher = [] ∧
    (clean st reason).1.timeoutCheckInterval = false ∧
    (clean st reason).1.toTransport = false ∧
    ∀ p ∈ st.dispatcher.map (fun q => (q.1, clearGuards q.2)), p.2.guards = [] := by
  refine ⟨rfl, rfl, rfl, rfl, rfl, ?_⟩
  intro p hp
  obtain ⟨q, hq, rfl⟩ := List.mem_map.mp hp
  rfl

/-- Witness for C9: a peer with one pending waiter and one handler. -/
theorem clean_spec_witness :
    (clean (⟨5000, true,
      [(3, ⟨fun _ => .ok (), none, fun _ _ => .voidValue, []⟩)],
      [(4, ⟨4, 3, 0⟩)], fun _ => none, true⟩ : FbRpc Unit Unit Unit)
      (strBytes "shutdown")).2 =
      [.reject 4 ⟨FB_RPC_ERRORS.INTERNAL_ERROR.code,
        FB_RPC_ERRORS.INTERNAL_ERROR.message, -1, strBytes "shutdown"⟩] := by
  exact (clean_spec (⟨5000, true,
    [(3, ⟨fun _ => .ok (), none, fun _ _ => .voidValue, []⟩)],
    [(4, ⟨4, 3, 0⟩)], fun _ => none, true⟩ : FbRpc Unit Unit Unit)
    (strBytes "shutdown")).left

/-! ## Unknown frame type (C10) -/

/-- C10 — Unknown frame type: an inbound frame that decodes successfully
but whose type byte is none of 0, 1, 2, 3 falls through the dispatch switch:
`fromTransport` emits nothing and the peer state (pending table, dispatcher,
sink, checker) is unchanged. -/
theorem fromTransport_unknown_type (st : FbRpc ReqVal ResVal AppData)
    (data : Bytes) (appData : AppData) (msg : DecodedMessage)
    (hdec : decodeMessage data = .ok msg)
    (h0 : msg.type ≠ 0) (h1 : msg.type ≠ 1) (h2 : msg.type ≠ 2) (h3 : msg.type ≠ 3) :
    fromTransport st data appData = (st, ([] : List (RpcEvent ResVal))) := by
  simp [fromTransport, hdec, h0, h1, h2, h3]

/-- Witness for C10: a well-formed frame with type byte 4. -/
theorem fromTransport_unknown_type_witness :
    fromTransport (⟨5000, true, [], [(4, ⟨4, 3, 0⟩)], fun _ => none, true⟩ :
      FbRpc Unit Unit Unit) (encodeMessage 4 ((4 : Nat) : Int) 3 []) () =
      ((⟨5000, true, [], [(4, ⟨4, 3, 0⟩)], fun _ => none, true⟩ :
        FbRpc Unit Unit Unit), []) := by
  exact fromTransport_unknown_type (⟨5000, true, [], [(4, ⟨4, 3, 0⟩)],
    fun _ => none, true⟩ : FbRpc Unit Unit Unit)
    (encodeMessage 4 ((4 : Nat) : Int) 3 []) () ⟨4, 4, 3, []⟩
    (by rfl) (by norm_num) (by norm_num) (by norm_num) (by norm_num)
